import Mathlib

/-!
Verification development for the Globe Labs SMS adapter (`handlers/globe/globe.go`).

The adapter translates between the Globe Labs vendor wire format and the
gateway's canonical message model.  We shallowly embed the two operations the
specification is about:

* `receiveMessage` — the inbound webhook handler `ReceiveMessage`: decodes a
  batch of vendor entries, validates each entry's timestamp and sender
  address, writes each accepted message to the backend, and acknowledges the
  whole batch at the end.
* `sendMsg` — the outbound handler `SendMsg`: checks the three required
  channel configuration keys, splits the body into segments, performs one
  network call per segment, and aggregates a delivery status with one
  diagnostic log entry per attempt.

External collaborators (Go's `time.Parse`, the `urns` normalization library,
the backend persistence layer, and the HTTP stack) are passed in as explicit
function parameters, so each embedded operation is a pure function of its
inputs and of the collaborators' answers.
-/

namespace Globe

/-- `var maxMsgLength = 160` from `globe.go`. -/
def maxMsgLength : Nat := 160

/-- `const configPassphrase = "passphrase"`. -/
def configPassphrase : String := "passphrase"

/-- `const configAppSecret = "app_secret"`. -/
def configAppSecret : String := "app_secret"

/-- `const configAppID = "app_id"`. -/
def configAppID : String := "app_id"

/-- A channel: its string configuration map (partial — absent keys give
`none`), its country code and its vendor-assigned address. -/
structure Channel where
  config : String → Option String
  country : String
  address : String

/-- `Channel.StringConfigForKey(key, default)`: look the key up in the
configuration map, falling back to the supplied default when absent. -/
def stringConfigForKey (ch : Channel) (key dflt : String) : String :=
  (ch.config key).getD dflt

/-! ### Inbound data model (`moMsg` and `ReceiveMessage`) -/

/-- One entry of the vendor's `inboundSMSMessage` list.  JSON `null` for
`messageId` decodes to the empty string, as in the Go struct. -/
structure GlInboundEntry where
  dateTime : String
  destinationAddress : String
  messageID : String
  message : String
  senderAddress : String
deriving DecidableEq

/-- A canonical incoming message as built by
`Backend().NewIncomingMsg(c, urn, text).WithExternalID(id).WithReceivedOn(date)`.
Parsed timestamps are represented abstractly as `Nat`. -/
structure IncomingMsg where
  urn : String
  text : String
  externalID : String
  receivedOn : Nat
deriving DecidableEq

/-- The observable result of one `ReceiveMessage` invocation. -/
inductive ReceiveResult where
  /-- `DecodeAndValidateJSON` failed: `WriteAndLogRequestError`. -/
  | decodeError : ReceiveResult
  /-- Empty batch: `WriteAndLogRequestIgnored`. -/
  | ignored (reason : String) : ReceiveResult
  /-- A timestamp or sender-address validation failure:
  `WriteAndLogRequestError`. -/
  | validationError : ReceiveResult
  /-- `Backend().WriteMsg` returned an error, propagated to the host. -/
  | backendError : ReceiveResult
  /-- Full success: the returned events together with `WriteMsgSuccess`. -/
  | success (events : List IncomingMsg) : ReceiveResult
deriving DecidableEq

/-- The full observable outcome of `ReceiveMessage`: its result, the list of
messages actually written to the backend (in write order), and whether the
success acknowledgment `WriteMsgSuccess` was written. -/
structure ReceiveOutcome where
  result : ReceiveResult
  persisted : List IncomingMsg
  ackWritten : Bool
deriving DecidableEq

/-- `strings.HasPrefix(s, "tel:")`, computed on the string's character
sequence (the prefix is ASCII, so bytes and characters coincide). -/
def hasTelScheme (s : String) : Bool :=
  s.data.take 4 = ['t', 'e', 'l', ':']

/-- `s[4:]`: the sender address with its 4-byte `"tel:"` scheme removed,
computed on the string's character sequence. -/
def stripTelScheme (s : String) : String :=
  ⟨s.data.drop 4⟩

/-- Build the canonical message for one vendor entry, given the already
parsed date: the urn is `urns.NewTelURNForCountry(senderAddress[4:], country)`
(the abstract normalizer `nt` applied to the sender address with its
`"tel:"` scheme stripped), the body is the entry's `message`, the external id
its `messageId`. -/
def mkIncomingMsg (nt : String → String → String) (country : String)
    (date : Nat) (e : GlInboundEntry) : IncomingMsg :=
  ⟨nt (stripTelScheme e.senderAddress) country, e.message, e.messageID, date⟩

/-- The per-entry loop of `ReceiveMessage`.  `pt` abstracts
`time.Parse("Mon Jan 2 2006 15:04:05 GMT+0000 (UTC)", ·)` (`none` = parse
error), `nt` abstracts `urns.NewTelURNForCountry`, `w` abstracts
`Backend().WriteMsg` (`false` = write error).  `msgs` accumulates the
messages accepted so far; they are already persisted when the loop aborts. -/
def receiveLoop (pt : String → Option Nat) (nt : String → String → String)
    (w : IncomingMsg → Bool) (country : String) :
    List GlInboundEntry → List IncomingMsg → ReceiveOutcome
  | [], msgs => ⟨.success msgs, msgs, true⟩
  | e :: rest, msgs =>
    match pt e.dateTime with
    | none => ⟨.validationError, msgs, false⟩
    | some date =>
      if hasTelScheme e.senderAddress then
        if w (mkIncomingMsg nt country date e) then
          receiveLoop pt nt w country rest (msgs ++ [mkIncomingMsg nt country date e])
        else ⟨.backendError, msgs, false⟩
      else ⟨.validationError, msgs, false⟩

/-- `ReceiveMessage`: `none` payload models a JSON decode failure; an empty
decoded list is the ignored outcome; otherwise each entry is validated,
converted and written in order, and the batch acknowledged at the end. -/
def receiveMessage (pt : String → Option Nat) (nt : String → String → String)
    (w : IncomingMsg → Bool) (country : String)
    (payload : Option (List GlInboundEntry)) : ReceiveOutcome :=
  match payload with
  | none => ⟨.decodeError, [], false⟩
  | some entries =>
    if entries.length = 0 then ⟨.ignored "no messages, ignored", [], false⟩
    else receiveLoop pt nt w country entries []

/-- An entry passes the per-entry validation of `ReceiveMessage` exactly when
its timestamp parses and its sender address carries the `"tel:"` scheme. -/
def validEntry (pt : String → Option Nat) (e : GlInboundEntry) : Bool :=
  (pt e.dateTime).isSome && hasTelScheme e.senderAddress

/-- The canonical message an entry yields on the happy path (its date is the
parsed timestamp; the default `0` is never used for a valid entry). -/
def entryMsg (pt : String → Option Nat) (nt : String → String → String)
    (country : String) (e : GlInboundEntry) : IncomingMsg :=
  mkIncomingMsg nt country ((pt e.dateTime).getD 0) e

/-! ### Segmentation (`handlers.SplitMsg`) -/

/-- Modelled from the spec: `handlers.SplitMsg` is part of this repository's
`handlers` package but is not among the provided sources.  Per §4.3 of the
spec it splits the body on a length boundary into an ordered sequence of
segments, each at most `maxLen` characters, whose concatenation reconstructs
the original text with no character duplicated or lost.  The fuel argument
(instantiated with the text length, which suffices for any `maxLen ≥ 1`)
makes the recursion structural; the fuel-exhausted fallback emits the whole
remainder as one segment and is unreachable in actual use. -/
def splitMsgFuel (maxLen : Nat) : Nat → List Char → List (List Char)
  | _, [] => []
  | 0, cs => [cs]
  | fuel + 1, cs => cs.take maxLen :: splitMsgFuel maxLen fuel (cs.drop maxLen)

/-- Modelled from the spec: `handlers.SplitMsg(text, maxLen)`, see
`splitMsgFuel`. -/
def splitMsg (cs : List Char) (maxLen : Nat) : List (List Char) :=
  splitMsgFuel maxLen cs.length cs

/-- Concatenation of segments (the "ignoring join characters" reading of the
round-trip property). -/
def joinSegs : List (List Char) → List Char
  | [] => []
  | s :: rest => s ++ joinSegs rest

/-- Total number of characters across all segments. -/
def totalLen : List (List Char) → Nat
  | [] => 0
  | s :: rest => s.length + totalLen rest

/-! ### Outbound data model (`SendMsg`) -/

/-- The outcome of one per-segment HTTP exchange, as supplied by the
environment: `reqError` models `http.NewRequest` returning an error (and a
nil request), `transportError` models `utils.MakeHTTPRequest` returning an
error, `success` models a completed HTTP call (regardless of any
vendor-reported business error in the response body). -/
inductive CallResult where
  | reqError : CallResult
  | transportError : CallResult
  | success : CallResult
deriving DecidableEq

/-- One diagnostic log entry (`courier.NewChannelLogFromRR(...).WithError(...)`):
we record whether the attempt carried a transport error. -/
structure LogEntry where
  hasError : Bool
deriving DecidableEq

/-- The two delivery states: `courier.MsgErrored` and `courier.MsgWired`. -/
inductive MsgStatusValue where
  | errored : MsgStatusValue
  | wired : MsgStatusValue
deriving DecidableEq

/-- The `courier.MsgStatus` accumulator: current state plus the ordered
diagnostic log (`AddLog` appends). -/
structure MsgStatus where
  status : MsgStatusValue
  logs : List LogEntry
deriving DecidableEq

/-- The observable result of one `SendMsg` invocation. -/
inductive SendResult where
  /-- A missing required configuration key: `(nil, error)` before any
  network activity. -/
  | configError (key : String) : SendResult
  /-- The Go code dereferences the nil request returned by a failed
  `http.NewRequest` (headers are set before the error check), so the
  invocation panics instead of returning. -/
  | nilDeref : SendResult
  /-- Normal return `(status, nil)`. -/
  | ok (st : MsgStatus) : SendResult
deriving DecidableEq

/-- The canonical outgoing message: URN path, body text (already combined
with attachments, `handlers.GetTextAndAttachments`), and message id. -/
structure OutMsg where
  urnPath : String
  text : List Char
  id : Nat

/-- The per-segment loop of `SendMsg`.  `net i` is the environment's answer
to segment `i`'s HTTP exchange.  On `reqError` the nil request is
dereferenced (headers set before the error check).  On a transport error the
log entry is appended and the function returns `(status, nil)` at once.  On
success the log entry is appended and the status set to `MsgWired`. -/
def sendLoop (net : Nat → CallResult) :
    List (List Char) → Nat → MsgStatus → SendResult
  | [], _, st => .ok st
  | _part :: rest, i, st =>
    match net i with
    | .reqError => .nilDeref
    | .transportError => .ok ⟨st.status, st.logs ++ [⟨true⟩]⟩
    | .success => sendLoop net rest (i + 1) ⟨.wired, st.logs ++ [⟨false⟩]⟩

/-- `SendMsg`: check `app_id`, `app_secret`, `passphrase` in that order
(each fetched with empty-string default and rejected when empty), then
create the status as `MsgErrored` with an empty log and run the segment
loop over `SplitMsg(text, maxMsgLength)`. -/
def sendMsg (ch : Channel) (msg : OutMsg) (net : Nat → CallResult) : SendResult :=
  if stringConfigForKey ch configAppID "" = "" then .configError configAppID
  else if stringConfigForKey ch configAppSecret "" = "" then .configError configAppSecret
  else if stringConfigForKey ch configPassphrase "" = "" then .configError configPassphrase
  else sendLoop net (splitMsg msg.text maxMsgLength) 0 ⟨.errored, []⟩

/-- Pointwise update of a configuration map at one key. -/
def updateCfg (f : String → Option String) (k v : String) : String → Option String :=
  fun j => if j = k then some v else f j

/-! ### Lemmas about segmentation -/

theorem splitMsgFuel_nil (maxLen fuel : Nat) : splitMsgFuel maxLen fuel [] = [] := by
  cases fuel <;> rfl

theorem joinSegs_splitMsgFuel (maxLen : Nat) :
    ∀ (fuel : Nat) (cs : List Char), joinSegs (splitMsgFuel maxLen fuel cs) = cs := by
  intro fuel
  induction fuel with
  | zero =>
    intro cs
    cases cs <;> simp [splitMsgFuel, joinSegs]
  | succ n ih =>
    intro cs
    cases cs with
    | nil => simp [splitMsgFuel, joinSegs]
    | cons c cs' =>
      show joinSegs ((c :: cs').take maxLen :: splitMsgFuel maxLen n ((c :: cs').drop maxLen))
        = c :: cs'
      rw [joinSegs, ih]
      exact List.take_append_drop maxLen (c :: cs')

theorem splitMsgFuel_length_le (maxLen : Nat) (hml : 1 ≤ maxLen) :
    ∀ (fuel : Nat) (cs : List Char), cs.length ≤ fuel →
      ∀ s ∈ splitMsgFuel maxLen fuel cs, s.length ≤ maxLen := by
  intro fuel
  induction fuel with
  | zero =>
    intro cs hcs
    have : cs = [] := List.eq_nil_of_length_eq_zero (Nat.le_zero.mp hcs)
    subst this
    simp [splitMsgFuel]
  | succ n ih =>
    intro cs hcs s hs
    cases cs with
    | nil => simp [splitMsgFuel] at hs
    | cons c cs' =>
      have hs' : s = (c :: cs').take maxLen ∨ s ∈ splitMsgFuel maxLen n ((c :: cs').drop maxLen) := by
        simpa [splitMsgFuel] using hs
      rcases hs' with h | h
      · subst h
        rw [List.length_take]
        exact Nat.min_le_left _ _
      · refine ih ((c :: cs').drop maxLen) ?_ s h
        rw [List.length_drop]
        simp only [List.length_cons] at hcs ⊢
        omega

theorem splitMsgFuel_singleton (maxLen fuel : Nat) (hml : 1 ≤ maxLen) (hf : 1 ≤ fuel)
    (d : Char) : splitMsgFuel maxLen fuel [d] = [[d]] := by
  cases fuel with
  | zero => omega
  | succ n =>
    cases maxLen with
    | zero => omega
    | succ m =>
      show [d].take (m + 1) :: splitMsgFuel (m + 1) n ([d].drop (m + 1)) = [[d]]
      simp [splitMsgFuel_nil]

theorem splitMsg_two_chunks (cs : List Char) (h : cs.length = 161) :
    splitMsg cs 160 = [cs.take 160, cs.drop 160] := by
  cases cs with
  | nil => simp at h
  | cons c cs' =>
    have h' : cs'.length = 160 := by simpa using h
    have hstep : splitMsg (c :: cs') 160
        = (c :: cs').take 160 :: splitMsgFuel 160 cs'.length ((c :: cs').drop 160) := rfl
    have hrest : ((c :: cs').drop 160).length = 1 := by
      simp [List.length_drop, h']
    obtain ⟨d, hd⟩ := List.length_eq_one.mp hrest
    rw [hstep, hd, splitMsgFuel_singleton 160 cs'.length (by omega) (by omega) d, ← hd]

/-! ### Lemmas about the outbound segment loop -/

theorem sendLoop_wired_of_wired (net : Nat → CallResult) :
    ∀ (parts : List (List Char)) (i : Nat) (L : List LogEntry) (st' : MsgStatus),
      sendLoop net parts i ⟨.wired, L⟩ = .ok st' → st'.status = .wired := by
  intro parts
  induction parts with
  | nil =>
    intro i L st' h
    cases h
    rfl
  | cons p rest ih =>
    intro i L st' h
    cases hnet : net i
    case reqError =>
      simp only [sendLoop, hnet] at h
      cases h
    case transportError =>
      simp only [sendLoop, hnet] at h
      cases h
      rfl
    case success =>
      simp only [sendLoop, hnet] at h
      exact ih (i + 1) (L ++ [⟨false⟩]) st' h

theorem sendLoop_logs_grow (net : Nat → CallResult) :
    ∀ (parts : List (List Char)) (i : Nat) (st st' : MsgStatus),
      sendLoop net parts i st = .ok st' → ∃ extra, st'.logs = st.logs ++ extra := by
  intro parts
  induction parts with
  | nil =>
    intro i st st' h
    cases h
    exact ⟨[], by simp⟩
  | cons p rest ih =>
    intro i st st' h
    cases hnet : net i
    case reqError =>
      simp only [sendLoop, hnet] at h
      cases h
    case transportError =>
      simp only [sendLoop, hnet] at h
      cases h
      exact ⟨[⟨true⟩], rfl⟩
    case success =>
      simp only [sendLoop, hnet] at h
      obtain ⟨extra, hx⟩ := ih (i + 1) ⟨.wired, st.logs ++ [⟨false⟩]⟩ st' h
      exact ⟨⟨false⟩ :: extra, by simpa [List.append_assoc] using hx⟩

theorem sendLoop_wired_iff (net : Nat → CallResult) :
    ∀ (parts : List (List Char)) (i : Nat) (L : List LogEntry),
      (∀ l ∈ L, l.hasError = true) →
      ∀ st', sendLoop net parts i ⟨.errored, L⟩ = .ok st' →
        (st'.status = .wired ↔ ∃ l ∈ st'.logs, l.hasError = false) := by
  intro parts
  induction parts with
  | nil =>
    intro i L hL st' h
    cases h
    constructor
    · intro hw
      exact absurd hw (by simp)
    · rintro ⟨l, hl, hf⟩
      simp [hL l hl] at hf
  | cons p rest ih =>
    intro i L hL st' h
    cases hnet : net i
    case reqError =>
      simp only [sendLoop, hnet] at h
      cases h
    case transportError =>
      simp only [sendLoop, hnet] at h
      cases h
      constructor
      · intro hw
        exact absurd hw (by simp)
      · rintro ⟨l, hl, hf⟩
        rcases List.mem_append.mp hl with hl' | hl'
        · simp [hL l hl'] at hf
        · have : l = (⟨true⟩ : LogEntry) := by simpa using hl'
          subst this
          simp at hf
    case success =>
      simp only [sendLoop, hnet] at h
      have hw := sendLoop_wired_of_wired net rest (i + 1) (L ++ [⟨false⟩]) st' h
      obtain ⟨extra, hx⟩ := sendLoop_logs_grow net rest (i + 1) ⟨.wired, L ++ [⟨false⟩]⟩ st' h
      constructor
      · intro _
        refine ⟨⟨false⟩, ?_, rfl⟩
        rw [hx]
        simp
      · intro _
        exact hw

theorem sendLoop_first_transport_fail (net : Nat → CallResult) :
    ∀ (k : Nat) (parts : List (List Char)) (i : Nat) (st : MsgStatus),
      k < parts.length →
      (∀ j, j < k → net (i + j) = .success) →
      net (i + k) = .transportError →
      sendLoop net parts i st
        = .ok ⟨if k = 0 then st.status else .wired,
               st.logs ++ List.replicate k ⟨false⟩ ++ [⟨true⟩]⟩ := by
  intro k
  induction k with
  | zero =>
    intro parts i st hk _ hfail
    cases parts with
    | nil => simp at hk
    | cons p rest =>
      have hnet : net i = .transportError := by simpa using hfail
      simp [sendLoop, hnet]
  | succ n ih =>
    intro parts i st hk hsucc hfail
    cases parts with
    | nil => simp at hk
    | cons p rest =>
      have h0 : net i = .success := by simpa using hsucc 0 (Nat.succ_pos n)
      have hrec := ih rest (i + 1) ⟨.wired, st.logs ++ [⟨false⟩]⟩
        (by simpa using hk)
        (fun j hj => by
          have hx := hsucc (j + 1) (by omega)
          have he : i + (j + 1) = i + 1 + j := by omega
          rwa [he] at hx)
        (by
          have he : i + (n + 1) = i + 1 + n := by omega
          rwa [he] at hfail)
      simp only [sendLoop, h0, hrec]
      simp [List.replicate_succ, List.append_assoc]

theorem sendLoop_req_fail (net : Nat → CallResult) :
    ∀ (k : Nat) (parts : List (List Char)) (i : Nat) (st : MsgStatus),
      k < parts.length →
      (∀ j, j < k → net (i + j) = .success) →
      net (i + k) = .reqError →
      sendLoop net parts i st = .nilDeref := by
  intro k
  induction k with
  | zero =>
    intro parts i st hk _ hfail
    cases parts with
    | nil => simp at hk
    | cons p rest =>
      have hnet : net i = .reqError := by simpa using hfail
      simp [sendLoop, hnet]
  | succ n ih =>
    intro parts i st hk hsucc hfail
    cases parts with
    | nil => simp at hk
    | cons p rest =>
      have h0 : net i = .success := by simpa using hsucc 0 (Nat.succ_pos n)
      simp only [sendLoop, h0]
      refine ih rest (i + 1) ⟨.wired, st.logs ++ [⟨false⟩]⟩ (by simpa using hk)
        (fun j hj => ?_) ?_
      · have hx := hsucc (j + 1) (by omega)
        have he : i + (j + 1) = i + 1 + j := by omega
        rwa [he] at hx
      · have he : i + (n + 1) = i + 1 + n := by omega
        rwa [he] at hfail

/-! ### Lemmas about the inbound loop -/

theorem receiveLoop_all_valid (pt : String → Option Nat) (nt : String → String → String)
    (w : IncomingMsg → Bool) (c : String) (hw : ∀ m, w m = true) :
    ∀ (entries : List GlInboundEntry), (∀ e ∈ entries, validEntry pt e = true) →
      ∀ msgs, receiveLoop pt nt w c entries msgs
        = ⟨.success (msgs ++ entries.map (entryMsg pt nt c)),
           msgs ++ entries.map (entryMsg pt nt c), true⟩ := by
  intro entries
  induction entries with
  | nil =>
    intro _ msgs
    simp [receiveLoop]
  | cons e rest ih =>
    intro hv msgs
    have hve : (pt e.dateTime).isSome = true ∧ hasTelScheme e.senderAddress = true := by
      simpa [validEntry] using hv e (by simp)
    obtain ⟨d, hd⟩ := Option.isSome_iff_exists.mp hve.1
    have hme : entryMsg pt nt c e = mkIncomingMsg nt c d e := by
      simp [entryMsg, hd]
    simp only [receiveLoop, hd, hve.2, if_true, hw _]
    rw [ih (fun e' he' => hv e' (by simp [he']))]
    simp [hme, List.append_assoc]

theorem receiveLoop_first_invalid (pt : String → Option Nat) (nt : String → String → String)
    (w : IncomingMsg → Bool) (c : String) (hw : ∀ m, w m = true) :
    ∀ (entries : List GlInboundEntry), (∃ e ∈ entries, validEntry pt e = false) →
      ∀ msgs, receiveLoop pt nt w c entries msgs
        = ⟨.validationError,
           msgs ++ (entries.takeWhile (validEntry pt)).map (entryMsg pt nt c), false⟩ := by
  intro entries
  induction entries with
  | nil =>
    rintro ⟨e, he, _⟩ _
    simp at he
  | cons e rest ih =>
    rintro ⟨e', he', hinv⟩ msgs
    by_cases hve : validEntry pt e = true
    · have hrest : ∃ x ∈ rest, validEntry pt x = false := by
        rcases List.mem_cons.mp he' with h | h
        · subst h
          rw [hve] at hinv
          cases hinv
        · exact ⟨e', h, hinv⟩
      have hve' : (pt e.dateTime).isSome = true ∧ hasTelScheme e.senderAddress = true := by
        simpa [validEntry] using hve
      obtain ⟨d, hd⟩ := Option.isSome_iff_exists.mp hve'.1
      have hme : entryMsg pt nt c e = mkIncomingMsg nt c d e := by
        simp [entryMsg, hd]
      simp only [receiveLoop, hd, hve'.2, if_true, hw _]
      rw [ih hrest]
      simp [List.takeWhile_cons, hve, hme, List.append_assoc]
    · have hve0 : validEntry pt e = false := by
        cases hvv : validEntry pt e
        · rfl
        · exact absurd hvv hve
      rcases hptE : pt e.dateTime with _ | d
      · simp only [receiveLoop, hptE]
        simp [List.takeWhile_cons, hve0]
      · have hsw : hasTelScheme e.senderAddress = false := by
          have hx := hve0
          simpa [validEntry, hptE] using hx
        simp only [receiveLoop, hptE, hsw]
        simp [List.takeWhile_cons, hve0]

/-- Shared corollary: a batch containing an invalid entry is rejected whole —
the outcome is `validationError`, the acknowledgment is never written, and
exactly the longest valid-and-written leading run of entries stays
persisted. -/
theorem receiveMessage_invalid (pt : String → Option Nat) (nt : String → String → String)
    (w : IncomingMsg → Bool) (c : String) (entries : List GlInboundEntry)
    (hw : ∀ m, w m = true) (hinv : ∃ e ∈ entries, validEntry pt e = false) :
    receiveMessage pt nt w c (some entries)
      = ⟨.validationError,
         (entries.takeWhile (validEntry pt)).map (entryMsg pt nt c), false⟩ := by
  have hne : ¬ entries.length = 0 := by
    obtain ⟨e, he, _⟩ := hinv
    cases entries
    · simp at he
    · simp
  simp only [receiveMessage, if_neg hne]
  simpa using receiveLoop_first_invalid pt nt w c hw entries hinv []

/-! ### Concrete fixtures for witnesses and counterexamples -/

/-- A channel whose configuration carries all three required keys. -/
def chW : Channel :=
  ⟨fun k => if k = "app_id" then some "ai"
    else if k = "app_secret" then some "as"
    else if k = "passphrase" then some "pp" else none, "PH", "2158"⟩

/-- A channel with an entirely empty configuration map. -/
def chNone : Channel := ⟨fun _ => none, "PH", "2158"⟩

/-- A 161-character outgoing message (two segments at maximum length 160). -/
def msg161 : OutMsg := ⟨"+639171234567", List.replicate 161 'x', 7⟩

/-- A short outgoing message (one segment). -/
def msgShort : OutMsg := ⟨"+639171234567", ['h', 'i'], 8⟩

/-- Environment where the first segment's call fails in transport and all
later ones would succeed. -/
def netFailFirst : Nat → CallResult :=
  fun i => if i = 0 then .transportError else .success

/-- Environment where every call succeeds. -/
def netOk : Nat → CallResult := fun _ => .success

/-- Environment where request construction fails. -/
def netReqErr : Nat → CallResult := fun _ => .reqError

/-- Timestamp oracle that accepts every input. -/
def ptAll : String → Option Nat := fun _ => some 0

/-- Timestamp oracle rejecting exactly the literal `"bad"`. -/
def ptBad : String → Option Nat := fun s => if s = "bad" then none else some 0

/-- A normalizer that keeps the national number unchanged. -/
def ntId : String → String → String := fun s _ => s

/-- A backend that accepts every write. -/
def wOk : IncomingMsg → Bool := fun _ => true

/-- A two-entry inbound batch whose first entry is valid and whose second
entry's sender address lacks the `"tel:"` scheme. -/
def cxEntries : List GlInboundEntry :=
  [⟨"d1", "tel:21581234", "id1", "Hello", "tel:+639171234567"⟩,
   ⟨"d2", "tel:21581234", "id2", "Howdy", "639170000000"⟩]

/-- A single-entry inbound batch that validates completely. -/
def okEntries : List GlInboundEntry :=
  [⟨"Fri Nov 22 2013 12:12:13 GMT+0000 (UTC)", "tel:21581234", "",
    "Hello", "tel:+639171234567"⟩]

/-- A single-entry inbound batch whose timestamp does not parse. -/
def badDateEntries : List GlInboundEntry :=
  [⟨"bad", "tel:21581234", "", "Hi", "tel:+639171234567"⟩]

/-! ### Claim theorems -/

set_option maxRecDepth 8192 in
/-- C1, counterexample: with all three configuration keys present, a
161-character body splits into two segments, yet when the first segment's
network call fails in transport the send returns at once with status
`Errored` and a single log entry — not status `Wired` with two entries as
the claim states. -/
theorem send_every_segment_attempted_cex :
    sendMsg chW msg161 netFailFirst = .ok ⟨.errored, [⟨true⟩]⟩ ∧
    (splitMsg msg161.text maxMsgLength).length = 2 ∧
    ¬ (MsgStatusValue.errored = MsgStatusValue.wired ∨
        ([(⟨true⟩ : LogEntry)]).length = 2) := by
  decide

/-- C1, amended: a segment's transport failure aborts the remaining
segments.  If the calls for the first `k` segments succeed and segment `k`'s
call fails in transport (with `k` within the segment list), `SendMsg`
returns right after logging the failed attempt: the status is `Errored` when
the very first segment failed and `Wired` otherwise, and the log holds
exactly `k + 1` entries — one per attempted segment; segments after the
failure are never attempted.  In particular, for a two-segment send where
the first call fails, the final status is `Errored` and the log has exactly
one entry. -/
theorem send_abort_on_first_fail (ch : Channel) (msg : OutMsg) (net : Nat → CallResult)
    (k : Nat)
    (h1 : stringConfigForKey ch configAppID "" ≠ "")
    (h2 : stringConfigForKey ch configAppSecret "" ≠ "")
    (h3 : stringConfigForKey ch configPassphrase "" ≠ "")
    (hk : k < (splitMsg msg.text maxMsgLength).length)
    (hsucc : ∀ j, j < k → net j = .success)
    (hfail : net k = .transportError) :
    sendMsg ch msg net
      = .ok ⟨if k = 0 then .errored else .wired,
             List.replicate k (⟨false⟩ : LogEntry) ++ [⟨true⟩]⟩ ∧
    (List.replicate k (⟨false⟩ : LogEntry) ++ [(⟨true⟩ : LogEntry)]).length = k + 1 := by
  constructor
  · simp only [sendMsg, if_neg h1, if_neg h2, if_neg h3]
    have hrun := sendLoop_first_transport_fail net k (splitMsg msg.text maxMsgLength) 0
      ⟨.errored, []⟩ hk (fun j hj => by simpa using hsucc j hj) (by simpa using hfail)
    simpa using hrun
  · simp

set_option maxRecDepth 8192 in
/-- C1, witness: instantiation of the amended theorem at the two-segment
fixture with the first call failing. -/
theorem send_abort_on_first_fail_witness :
    sendMsg chW msg161 netFailFirst
      = .ok ⟨if 0 = 0 then .errored else .wired,
             List.replicate 0 (⟨false⟩ : LogEntry) ++ [⟨true⟩]⟩ ∧
    (List.replicate 0 (⟨false⟩ : LogEntry) ++ [(⟨true⟩ : LogEntry)]).length = 0 + 1 :=
  send_abort_on_first_fail chW msg161 netFailFirst 0 (by decide) (by decide) (by decide)
    (by decide) (fun j hj => absurd hj (Nat.not_lt_zero j)) (by decide)

/-- C4: whenever `SendMsg` returns a delivery status (so configuration
passed and no request-construction panic occurred), that status — created as
`Errored` with an empty log — is `Wired` exactly when at least one logged
network attempt completed without transport error; being `Errored` at the
end means no attempted call succeeded.  Vendor-reported business errors in
response bodies are never inspected: `CallResult.success` covers any
completed HTTP exchange. -/
theorem send_wired_iff_some_success (ch : Channel) (msg : OutMsg)
    (net : Nat → CallResult) (st : MsgStatus)
    (h : sendMsg ch msg net = .ok st) :
    st.status = .wired ↔ ∃ l ∈ st.logs, l.hasError = false := by
  simp only [sendMsg] at h
  split at h
  · simp at h
  · split at h
    · simp at h
    · split at h
      · simp at h
      · exact sendLoop_wired_iff net (splitMsg msg.text maxMsgLength) 0 [] (by simp) st h

/-- C4, witness: instantiation at a one-segment send whose call succeeds. -/
theorem send_wired_iff_some_success_witness :
    (MsgStatus.mk .wired [⟨false⟩]).status = .wired ↔
      ∃ l ∈ (MsgStatus.mk .wired [⟨false⟩]).logs, l.hasError = false :=
  send_wired_iff_some_success chW msgShort netOk ⟨.wired, [⟨false⟩]⟩ (by decide)

/-- C6: a send whose channel configuration yields the empty string for
`app_id`, `app_secret` or `passphrase` (checked in that order) returns the
corresponding configuration error for every possible network environment —
so no network call occurs, no segment is processed, and no `DeliveryStatus`
is returned (the `configError` result carries none). -/
theorem send_config_fatal (ch : Channel) (msg : OutMsg) :
    (stringConfigForKey ch configAppID "" = "" →
      ∀ net, sendMsg ch msg net = .configError configAppID) ∧
    (stringConfigForKey ch configAppID "" ≠ "" →
      stringConfigForKey ch configAppSecret "" = "" →
      ∀ net, sendMsg ch msg net = .configError configAppSecret) ∧
    (stringConfigForKey ch configAppID "" ≠ "" →
      stringConfigForKey ch configAppSecret "" ≠ "" →
      stringConfigForKey ch configPassphrase "" = "" →
      ∀ net, sendMsg ch msg net = .configError configPassphrase) := by
  refine ⟨fun h net => ?_, fun h1 h net => ?_, fun h1 h2 h net => ?_⟩ <;>
    simp [sendMsg, *]

/-- C6, witness: a channel with no configuration at all fails on `app_id`. -/
theorem send_config_fatal_witness :
    sendMsg chNone msgShort netOk = .configError configAppID :=
  (send_config_fatal chNone msgShort).1 rfl netOk

/-- C9: the Go code sets the `Content-Type` and `Accept` headers on the
request returned by `http.NewRequest` before checking its error, so whenever
request construction fails for the segment being processed (all earlier
segments having succeeded), the invocation dereferences the nil request and
panics (`nilDeref`) instead of reaching the error-return branch — that
branch is unreachable when `http.NewRequest` errors. -/
theorem send_nil_deref (ch : Channel) (msg : OutMsg) (net : Nat → CallResult)
    (k : Nat)
    (h1 : stringConfigForKey ch configAppID "" ≠ "")
    (h2 : stringConfigForKey ch configAppSecret "" ≠ "")
    (h3 : stringConfigForKey ch configPassphrase "" ≠ "")
    (hk : k < (splitMsg msg.text maxMsgLength).length)
    (hsucc : ∀ j, j < k → net j = .success)
    (hreq : net k = .reqError) :
    sendMsg ch msg net = .nilDeref := by
  simp only [sendMsg, if_neg h1, if_neg h2, if_neg h3]
  exact sendLoop_req_fail net k (splitMsg msg.text maxMsgLength) 0 ⟨.errored, []⟩ hk
    (fun j hj => by simpa using hsucc j hj) (by simpa using hreq)

/-- C9, witness: request construction fails on the first segment of a
one-segment send. -/
theorem send_nil_deref_witness : sendMsg chW msgShort netReqErr = .nilDeref :=
  send_nil_deref chW msgShort netReqErr 0 (by decide) (by decide) (by decide)
    (by decide) (fun j hj => absurd hj (Nat.not_lt_zero j)) (by decide)

/-- Helper for C10: with empty-string default, a key bound to the empty
string reads exactly like an absent key. -/
theorem stringConfigForKey_update_empty (ch : Channel) (k : String)
    (hk : ch.config k = none) (j : String) :
    stringConfigForKey ⟨updateCfg ch.config k "", ch.country, ch.address⟩ j ""
      = stringConfigForKey ch j "" := by
  unfold stringConfigForKey updateCfg
  by_cases hj : j = k
  · subst hj
    simp [hk]
  · simp [hj]

/-- C10: binding a configuration key to the empty string is indistinguishable
from leaving it absent — `SendMsg` (which fetches every key with
empty-string default and rejects the empty string) returns the same result,
configuration errors included, on the updated channel as on the original. -/
theorem send_empty_key_eq_absent (ch : Channel) (msg : OutMsg)
    (net : Nat → CallResult) (k : String) (hk : ch.config k = none) :
    sendMsg ⟨updateCfg ch.config k "", ch.country, ch.address⟩ msg net
      = sendMsg ch msg net := by
  simp only [sendMsg, stringConfigForKey_update_empty ch k hk]

/-- C10, witness: adding `app_id ↦ ""` to the empty configuration changes
nothing; both sends fail with the `app_id` configuration error. -/
theorem send_empty_key_eq_absent_witness :
    sendMsg ⟨updateCfg chNone.config configAppID "", chNone.country, chNone.address⟩
        msgShort netOk
      = sendMsg chNone msgShort netOk :=
  send_empty_key_eq_absent chNone msgShort netOk configAppID rfl

/-- C2, counterexample: in a two-entry batch whose second entry's sender
lacks the `"tel:"` scheme, the batch is rejected with a validation error and
no acknowledgment, yet the first entry has already been written to the
backend — the persisted list is not empty, refuting "no message from that
batch is persisted". -/
theorem receive_all_or_nothing_cex :
    receiveMessage ptAll ntId wOk "PH" (some cxEntries)
      = ⟨.validationError, [⟨"+639171234567", "Hello", "id1", 0⟩], false⟩ ∧
    ([(⟨"+639171234567", "Hello", "id1", 0⟩ : IncomingMsg)] : List IncomingMsg) ≠ [] := by
  decide

/-- C2, amended: when some entry of an inbound batch fails validation (and
the backend accepts every write), the batch is rejected with a validation
error, no acknowledgment is written for any entry and no events are
returned — but the entries before the first invalid one, which individually
validated, remain persisted.  Only the acknowledgment is all-or-nothing, not
persistence. -/
theorem receive_partial_persist (pt : String → Option Nat)
    (nt : String → String → String) (w : IncomingMsg → Bool) (c : String)
    (entries : List GlInboundEntry)
    (hw : ∀ m, w m = true) (hinv : ∃ e ∈ entries, validEntry pt e = false) :
    receiveMessage pt nt w c (some entries)
      = ⟨.validationError,
         (entries.takeWhile (validEntry pt)).map (entryMsg pt nt c), false⟩ :=
  receiveMessage_invalid pt nt w c entries hw hinv

/-- C2, witness: instantiation of the amended theorem at the two-entry
fixture. -/
theorem receive_partial_persist_witness :
    receiveMessage ptAll ntId wOk "PH" (some cxEntries)
      = ⟨.validationError,
         (cxEntries.takeWhile (validEntry ptAll)).map (entryMsg ptAll ntId "PH"),
         false⟩ :=
  receive_partial_persist ptAll ntId wOk "PH" cxEntries (fun _ => rfl) (by decide)

/-- C3: segmentation with maximum length 160 is lossless and bounded — the
concatenation of the segments is exactly the original character sequence,
every segment has at most 160 characters, and a 161-character body yields
exactly two segments carrying 161 characters in total. -/
theorem segmentation_roundTrip (cs : List Char) :
    joinSegs (splitMsg cs maxMsgLength) = cs ∧
    (∀ s ∈ splitMsg cs maxMsgLength, s.length ≤ maxMsgLength) ∧
    (cs.length = 161 →
      (splitMsg cs maxMsgLength).length = 2 ∧
      totalLen (splitMsg cs maxMsgLength) = 161) := by
  refine ⟨joinSegs_splitMsgFuel maxMsgLength cs.length cs, ?_, ?_⟩
  · exact splitMsgFuel_length_le maxMsgLength (by norm_num [maxMsgLength]) cs.length cs
      le_rfl
  · intro h
    have h2 : splitMsg cs maxMsgLength = [cs.take 160, cs.drop 160] :=
      splitMsg_two_chunks cs h
    rw [h2]
    refine ⟨rfl, ?_⟩
    simp only [totalLen, List.length_take, List.length_drop, h]
    norm_num

/-- C3, witness: a concrete 161-character body produces two segments
totalling 161 characters. -/
theorem segmentation_roundTrip_witness :
    (List.replicate 161 'a').length = 161 ∧
    (splitMsg (List.replicate 161 'a') maxMsgLength).length = 2 ∧
    totalLen (splitMsg (List.replicate 161 'a') maxMsgLength) = 161 :=
  ⟨by simp, (segmentation_roundTrip (List.replicate 161 'a')).2.2 (by simp)⟩

/-- C5: for a nonempty inbound batch whose entries all validate (timestamps
parse, senders carry the `"tel:"` scheme) and whose writes all succeed, the
translator returns exactly one `IncomingMsg` per entry, in the original
order, the acknowledgment is written, and each message's sender identifier
is the entry's `senderAddress` with the `"tel:"` scheme stripped and
normalized (via `urns.NewTelURNForCountry`, abstracted as `nt`) with the
channel's country. -/
theorem receive_all_valid (pt : String → Option Nat) (nt : String → String → String)
    (w : IncomingMsg → Bool) (c : String) (entries : List GlInboundEntry)
    (hne : entries ≠ []) (hw : ∀ m, w m = true)
    (hv : ∀ e ∈ entries, validEntry pt e = true) :
    receiveMessage pt nt w c (some entries)
      = ⟨.success (entries.map (entryMsg pt nt c)),
         entries.map (entryMsg pt nt c), true⟩ ∧
    (entries.map (entryMsg pt nt c)).length = entries.length ∧
    ∀ e ∈ entries, (entryMsg pt nt c e).urn = nt (stripTelScheme e.senderAddress) c := by
  refine ⟨?_, by simp, fun e _ => rfl⟩
  have hlen : ¬ entries.length = 0 := by
    simpa [List.length_eq_zero] using hne
  simp only [receiveMessage, if_neg hlen]
  simpa using receiveLoop_all_valid pt nt w c hw entries hv []

/-- C5, witness: instantiation at a valid one-entry batch. -/
theorem receive_all_valid_witness :
    receiveMessage ptAll ntId wOk "PH" (some okEntries)
      = ⟨.success (okEntries.map (entryMsg ptAll ntId "PH")),
         okEntries.map (entryMsg ptAll ntId "PH"), true⟩ :=
  (receive_all_valid ptAll ntId wOk "PH" okEntries (by decide) (fun _ => rfl)
    (by decide)).1

/-- C7: if any entry of an inbound batch has a timestamp the layout parser
rejects (and the backend accepts every write, so no earlier write masks the
failure), the whole batch is rejected: the outcome is a validation error, no
acknowledgment is written, and no success outcome with accepted messages is
produced. -/
theorem receive_bad_timestamp (pt : String → Option Nat)
    (nt : String → String → String) (w : IncomingMsg → Bool) (c : String)
    (entries : List GlInboundEntry)
    (hw : ∀ m, w m = true) (hbad : ∃ e ∈ entries, pt e.dateTime = none) :
    (receiveMessage pt nt w c (some entries)).result = .validationError ∧
    (receiveMessage pt nt w c (some entries)).ackWritten = false ∧
    ∀ evs, (receiveMessage pt nt w c (some entries)).result ≠ .success evs := by
  have hinv : ∃ e ∈ entries, validEntry pt e = false := by
    obtain ⟨e, he, hn⟩ := hbad
    exact ⟨e, he, by simp [validEntry, hn]⟩
  rw [receiveMessage_invalid pt nt w c entries hw hinv]
  exact ⟨rfl, rfl, fun evs => by simp⟩

/-- C7, witness: instantiation at a one-entry batch whose timestamp fails to
parse. -/
theorem receive_bad_timestamp_witness :
    (receiveMessage ptBad ntId wOk "PH" (some badDateEntries)).result
      = .validationError :=
  (receive_bad_timestamp ptBad ntId wOk "PH" badDateEntries (fun _ => rfl)
    (by decide)).1

/-- C8: a payload decoding to an empty message list yields the `Ignored`
outcome with its human-readable reason; nothing is persisted and neither an
error nor a success acknowledgment is reported, for every choice of
collaborators. -/
theorem receive_empty_batch (pt : String → Option Nat)
    (nt : String → String → String) (w : IncomingMsg → Bool) (c : String) :
    receiveMessage pt nt w c (some [])
      = ⟨.ignored "no messages, ignored", [], false⟩ := rfl

end Globe
